import Mathlib

/-!
Verification of the NOTRACE room-membership coordinator
(`src/context/chat-context.tsx`): a shallow embedding of the membership
data model, the join transaction, the superseded-join handling, the
leave path, the liveness sweep and the message-log handler, together
with theorems about the invariants and behaviours they are claimed to
satisfy.

Timestamps are modelled as `Int` (JavaScript `Date.now()` arithmetic is
ordinary integer arithmetic on millisecond counts and may go negative
under clock skew).  The Firebase membership object
`rooms/{CODE}/members` is modelled as an association list from member
id (the object key) to the stored `Member` record; JavaScript objects
have unique keys, which is carried as an explicit hypothesis
(`goodMap`) where a proof needs it.
-/

namespace NOTRACE

/-- `const MAX_MEMBERS = 8` (chat-context.tsx line 24). -/
def MAX_MEMBERS : Nat := 8

/-- `const MEMBER_INACTIVITY_TIMEOUT = 5 * 60 * 1000` (line 25), in ms. -/
def MEMBER_INACTIVITY_TIMEOUT : Int := 5 * 60 * 1000

/-- The `Member` interface (lines 34-39): id, display name, presence
flag and last-seen timestamp. -/
structure Member where
  id : String
  name : String
  online : Bool
  lastSeen : Int
deriving Repr, DecidableEq

/-- The room's membership map `rooms/{CODE}/members`: a JavaScript
object keyed by member id, embedded as an association list. -/
abbrev Members := List (String × Member)

/-- `Object.values(currentMembers)`. -/
def Members.values (ms : Members) : List Member := ms.map Prod.snd

/-- `Object.values(currentMembers).filter((m) => m?.online)` (line 242). -/
def Members.onlineMembers (ms : Members) : List Member :=
  (Members.values ms).filter fun m => m.online

/-- The online-member count taken inside the join transaction (line 243). -/
def Members.onlineCount (ms : Members) : Nat := (Members.onlineMembers ms).length

/-- `onlineMembers.some((m) => m.id === memberId)` (line 244). -/
def Members.isAlreadyOnline (ms : Members) (memberId : String) : Bool :=
  (Members.onlineMembers ms).any fun m => m.id == memberId

/-- JavaScript object assignment `updatedMembers[memberId] = newUser`
(line 256): replace the value at an existing key in place, otherwise
append a fresh entry. -/
def Members.setEntry : Members → String → Member → Members
  | [], k, v => [(k, v)]
  | (k', v') :: rest, k, v =>
      if k' = k then (k, v) :: rest
      else (k', v') :: Members.setEntry rest k v

/-- Key lookup in the membership object (`snapshot.child(memberId)`). -/
def Members.lookupEntry : Members → String → Option Member
  | [], _ => none
  | (k', v') :: rest, k => if k' = k then some v' else Members.lookupEntry rest k

/-- The update function passed to `runTransaction` in `joinRoom`
(lines 237-259): treat a null map as empty, count the online members,
abort (return `none` = `undefined`) when the room is full and the
joining id is not among the online members, otherwise write the new
entry with `online: true` and `lastSeen: now`. -/
def joinTxn (memberId userName : String) (now : Int) (currentMembers : Members) :
    Option Members :=
  if Members.onlineCount currentMembers ≥ MAX_MEMBERS ∧
      Members.isAlreadyOnline currentMembers memberId = false then
    none
  else
    some (Members.setEntry currentMembers memberId
      { id := memberId, name := userName, online := true, lastSeen := now })

/-- Well-formedness of a membership object as only the coordinator ever
writes it: every stored record's `id` field equals its object key, and
object keys are unique (JavaScript objects cannot repeat a key). -/
def goodMap (ms : Members) : Prop :=
  (∀ p ∈ ms, (Prod.snd p).id = Prod.fst p) ∧ (ms.map Prod.fst).Nodup

instance (ms : Members) : Decidable (goodMap ms) := by
  unfold goodMap
  infer_instance

/-- The store serialises transactions on one key: applying one join
request either commits the transaction's result or, on abort, leaves
the data unmodified. -/
def applyJoin (ms : Members) (req : String × String × Int) : Members :=
  match joinTxn req.1 req.2.1 req.2.2 ms with
  | some ms' => ms'
  | none => ms

/-- A whole (serialised) sequence of concurrent join requests. -/
def applyJoins (ms : Members) (reqs : List (String × String × Int)) : Members :=
  reqs.foldl applyJoin ms

-- auxiliary lemmas about the membership map

lemma onlineCount_cons (k : String) (v : Member) (ms : Members) :
    Members.onlineCount ((k, v) :: ms) =
      (if v.online then 1 else 0) + Members.onlineCount ms := by
  simp only [Members.onlineCount, Members.onlineMembers, Members.values,
    List.map_cons, List.filter_cons]
  cases h : v.online <;> simp [h, Nat.add_comm]

lemma onlineCount_setEntry_le (ms : Members) (k : String) (v : Member) :
    Members.onlineCount (Members.setEntry ms k v) ≤ Members.onlineCount ms + 1 := by
  induction ms with
  | nil =>
      simp only [Members.setEntry, onlineCount_cons]
      cases v.online <;> simp [Members.onlineCount, Members.onlineMembers, Members.values]
  | cons p rest ih =>
      obtain ⟨k', v'⟩ := p
      by_cases hk : k' = k
      · subst hk
        have hs : Members.setEntry ((k', v') :: rest) k' v = (k', v) :: rest := by
          simp [Members.setEntry]
        rw [hs, onlineCount_cons, onlineCount_cons]
        cases hv : v.online <;> cases hv' : v'.online <;> simp <;> omega
      · have hs : Members.setEntry ((k', v') :: rest) k v =
            (k', v') :: Members.setEntry rest k v := by
          simp [Members.setEntry, hk]
        rw [hs, onlineCount_cons, onlineCount_cons]
        cases hv' : v'.online <;> simp <;> omega

lemma onlineCount_setEntry_of_online (ms : Members) (k : String) (v w : Member)
    (hw : Members.lookupEntry ms k = some w) (hwon : w.online = true)
    (hvon : v.online = true) :
    Members.onlineCount (Members.setEntry ms k v) = Members.onlineCount ms := by
  induction ms with
  | nil => simp [Members.lookupEntry] at hw
  | cons p rest ih =>
      obtain ⟨k', v'⟩ := p
      by_cases hk : k' = k
      · subst hk
        have hw' : v' = w := by
          simpa [Members.lookupEntry] using hw
        have hs : Members.setEntry ((k', v') :: rest) k' v = (k', v) :: rest := by
          simp [Members.setEntry]
        rw [hs, onlineCount_cons, onlineCount_cons, hvon, hw', hwon]
      · simp only [Members.lookupEntry, if_neg hk] at hw
        have hs : Members.setEntry ((k', v') :: rest) k v =
            (k', v') :: Members.setEntry rest k v := by
          simp [Members.setEntry, hk]
        rw [hs, onlineCount_cons, onlineCount_cons, ih hw]

lemma lookupEntry_of_isAlreadyOnline (ms : Members) (memberId : String)
    (hgood : goodMap ms) (h : Members.isAlreadyOnline ms memberId = true) :
    ∃ w, Members.lookupEntry ms memberId = some w ∧ w.online = true := by
  induction ms with
  | nil => simp [Members.isAlreadyOnline, Members.onlineMembers, Members.values] at h
  | cons p rest ih =>
      obtain ⟨k', v'⟩ := p
      obtain ⟨hid, hnodup⟩ := hgood
      have hidv' : v'.id = k' := hid (k', v') (List.mem_cons_self _ _)
      by_cases hk : k' = memberId
      · subst hk
        refine ⟨v', by simp [Members.lookupEntry], ?_⟩
        -- the online member with this id must be this entry: keys are unique
        simp only [Members.isAlreadyOnline, Members.onlineMembers, Members.values,
          List.map_cons, List.filter_cons] at h
        cases hv' : v'.online
        · rw [if_neg (by simp [hv'])] at h
          rcases List.any_eq_true.mp h with ⟨m, hm, hmid⟩
          have hmmem : m ∈ Members.values rest := List.mem_of_mem_filter hm
          rcases List.mem_map.mp hmmem with ⟨q, hq, hqm⟩
          have hqid : (Prod.snd q).id = Prod.fst q := hid q (List.mem_cons_of_mem _ hq)
          have hmid' : m.id = k' := beq_iff_eq.mp hmid
          have hkeyq : Prod.fst q = k' := by rw [← hqid, hqm, hmid']
          have hmem : Prod.fst q ∈ rest.map Prod.fst := List.mem_map_of_mem Prod.fst hq
          rw [hkeyq] at hmem
          exact absurd hmem (List.nodup_cons.mp hnodup).1
        · rfl
      · simp only [Members.lookupEntry, if_neg hk]
        have hgood' : goodMap rest :=
          ⟨fun q hq => hid q (List.mem_cons_of_mem _ hq), (List.nodup_cons.mp hnodup).2⟩
        apply ih hgood'
        simp only [Members.isAlreadyOnline, Members.onlineMembers, Members.values,
          List.map_cons, List.filter_cons] at h
        cases hv' : v'.online
        · rw [if_neg (by simp [hv'])] at h
          exact h
        · rw [if_pos (by simp [hv'])] at h
          simp only [List.any_cons, Bool.or_eq_true] at h
          rcases h with h | h
          · exact absurd (beq_iff_eq.mp h) (by rw [hidv']; exact hk)
          · exact h

lemma setEntry_keys (ms : Members) (k : String) (v : Member) (x : String)
    (hx : x ∈ (Members.setEntry ms k v).map Prod.fst) :
    x ∈ ms.map Prod.fst ∨ x = k := by
  induction ms with
  | nil =>
      simp only [Members.setEntry, List.map_cons, List.map_nil,
        List.mem_singleton] at hx
      exact Or.inr hx
  | cons q rest ih =>
      obtain ⟨kq, vq⟩ := q
      by_cases hkq : kq = k
      · subst hkq
        have hs : Members.setEntry ((kq, vq) :: rest) kq v = (kq, v) :: rest := by
          simp [Members.setEntry]
        rw [hs, List.map_cons, List.mem_cons] at hx
        rcases hx with h | h
        · exact Or.inr h
        · exact Or.inl (by rw [List.map_cons]; exact List.mem_cons_of_mem _ h)
      · have hs : Members.setEntry ((kq, vq) :: rest) k v =
            (kq, vq) :: Members.setEntry rest k v := by
          simp [Members.setEntry, hkq]
        rw [hs, List.map_cons, List.mem_cons] at hx
        rcases hx with h | h
        · exact Or.inl (by rw [List.map_cons]; exact List.mem_cons.mpr (Or.inl h))
        · rcases ih h with h' | h'
          · exact Or.inl (by rw [List.map_cons]; exact List.mem_cons_of_mem _ h')
          · exact Or.inr h'

lemma goodMap_setEntry (ms : Members) (k : String) (v : Member) (hv : v.id = k)
    (hgood : goodMap ms) : goodMap (Members.setEntry ms k v) := by
  induction ms with
  | nil =>
      refine ⟨?_, by simp [Members.setEntry]⟩
      intro p hp
      simp only [Members.setEntry, List.mem_singleton] at hp
      subst hp
      exact hv
  | cons p rest ih =>
      obtain ⟨k', v'⟩ := p
      obtain ⟨hid, hnodup⟩ := hgood
      have hgood' : goodMap rest :=
        ⟨fun q hq => hid q (List.mem_cons_of_mem _ hq), (List.nodup_cons.mp hnodup).2⟩
      by_cases hk : k' = k
      · subst hk
        simp only [Members.setEntry, if_pos rfl]
        constructor
        · intro q hq
          rcases List.mem_cons.mp hq with h | h
          · subst h; exact hv
          · exact hid q (List.mem_cons_of_mem _ h)
        · simpa using hnodup
      · simp only [Members.setEntry, if_neg hk]
        obtain ⟨hid', hnodup'⟩ := ih hgood'
        constructor
        · intro q hq
          rcases List.mem_cons.mp hq with h | h
          · subst h; exact hid (k', v') (List.mem_cons_self _ _)
          · exact hid' q h
        · rw [List.map_cons, List.nodup_cons]
          refine ⟨?_, hnodup'⟩
          intro hmem
          rcases setEntry_keys rest k v k' hmem with h | h
          · exact absurd h (List.nodup_cons.mp hnodup).1
          · exact hk h

/-- One committed join keeps the invariant: from a well-formed map with
at most `MAX_MEMBERS` online members, a committed transaction result is
again well-formed with at most `MAX_MEMBERS` online members. -/
lemma joinTxn_preserves (memberId userName : String) (now : Int) (ms ms' : Members)
    (hgood : goodMap ms) (hle : Members.onlineCount ms ≤ MAX_MEMBERS)
    (hcommit : joinTxn memberId userName now ms = some ms') :
    goodMap ms' ∧ Members.onlineCount ms' ≤ MAX_MEMBERS := by
  unfold joinTxn at hcommit
  split at hcommit
  · exact absurd hcommit (by simp)
  · next hcond =>
    obtain rfl : Members.setEntry ms memberId
        { id := memberId, name := userName, online := true, lastSeen := now } = ms' := by
      simpa using hcommit
    refine ⟨goodMap_setEntry ms memberId _ rfl hgood, ?_⟩
    rcases not_and_or.mp hcond with hlt | hon
    · have hlt' : Members.onlineCount ms < MAX_MEMBERS := Nat.lt_of_not_le hlt
      calc Members.onlineCount (Members.setEntry ms memberId _)
          ≤ Members.onlineCount ms + 1 := onlineCount_setEntry_le ms memberId _
        _ ≤ MAX_MEMBERS := by omega
    · have hon' : Members.isAlreadyOnline ms memberId = true := by
        cases h : Members.isAlreadyOnline ms memberId
        · exact absurd h hon
        · rfl
      obtain ⟨w, hw, hwon⟩ := lookupEntry_of_isAlreadyOnline ms memberId hgood hon'
      rw [onlineCount_setEntry_of_online ms memberId _ w hw hwon rfl]
      exact hle

/-- C1 (capacity invariant), quantified over serialised sequences of
join transactions: from a well-formed membership map with at most
`MAX_MEMBERS = 8` online members, any sequence of `joinRoom`
transactions (each committing only when the online count excluding an
already-online joiner is below 8, and leaving the data unchanged on
abort) keeps the number of `online == true` members at or below 8. -/
theorem capacity_invariant (reqs : List (String × String × Int)) (ms : Members)
    (hgood : goodMap ms) (hle : Members.onlineCount ms ≤ MAX_MEMBERS) :
    goodMap (applyJoins ms reqs) ∧
      Members.onlineCount (applyJoins ms reqs) ≤ MAX_MEMBERS := by
  induction reqs generalizing ms with
  | nil => exact ⟨hgood, hle⟩
  | cons r rest ih =>
      have hstep : goodMap (applyJoin ms r) ∧
          Members.onlineCount (applyJoin ms r) ≤ MAX_MEMBERS := by
        unfold applyJoin
        cases h : joinTxn r.1 r.2.1 r.2.2 ms with
        | none => exact ⟨hgood, hle⟩
        | some ms' => exact joinTxn_preserves r.1 r.2.1 r.2.2 ms ms' hgood hle h
      have hfold : applyJoins ms (r :: rest) = applyJoins (applyJoin ms r) rest := by
        simp [applyJoins, List.foldl_cons]
      rw [hfold]
      exact ih (applyJoin ms r) hstep.1 hstep.2

/-- Witness for C1: ten distinct joiners against an initially empty
room leave at most 8 members online. -/
theorem capacity_invariant_witness :
    goodMap ([] : Members) ∧ Members.onlineCount ([] : Members) ≤ MAX_MEMBERS ∧
      Members.onlineCount (applyJoins ([] : Members)
        [("u1", "a", 1), ("u2", "b", 2), ("u3", "c", 3), ("u4", "d", 4),
         ("u5", "e", 5), ("u6", "f", 6), ("u7", "g", 7), ("u8", "h", 8),
         ("u9", "i", 9), ("u10", "j", 10)]) ≤ MAX_MEMBERS := by
  refine ⟨by decide, by decide, ?_⟩
  exact (capacity_invariant _ ([] : Members) (by decide) (by decide)).2

/-! ## The joinRoom / leaveRoom session protocol

`joinRoom` (chat-context.tsx lines 181-397) is an async function whose
every `await` may reject and whose attempt counter may be advanced by
a newer concurrent call.  The embedding makes those environmental
outcomes explicit inputs (`JoinEnv`) and threads the client-local
React state (`LocalState`) and the room's store-side state
(`RoomStore`) through the call, recording the store operations the
call performs as a trace of events. -/

/-- `remove(userRef)`: delete the node at a member key. -/
def Members.removeEntry (ms : Members) (k : String) : Members :=
  ms.filter fun p => !(p.1 == k)

/-- `roomCode.toUpperCase()` on the character list (structurally
recursive, so concrete room codes evaluate). -/
def jsToUpper (s : String) : String := String.mk (s.data.map Char.toUpper)

/-- Error conditions written to the `error` state, one tag per distinct
`setError` message in `joinRoom`/`leaveRoom`. -/
inductive ErrTag
  | dbNotInitialized    -- "Database not initialized" (line 183)
  | roomNotFound        -- "Room ... does not exist." (line 228)
  | roomFullOrBusy      -- transaction failed to commit (line 279)
  | inconsistent        -- committed entry missing from snapshot (line 288)
  | generalJoinError    -- catch-all message (lines 384-390)
deriving Repr, DecidableEq

/-- The client-local React state touched by the join/leave protocol:
`currentUser`, `currentRoomCode` (a ref), `loading`, `error` and
whether the two `onValue` listeners are attached.  (The `messages` and
`members` display arrays are not modelled.) -/
structure LocalState where
  currentUser : Option Member
  currentRoomCode : Option String
  loading : Bool
  error : Option ErrTag
  msgListener : Bool
  memListener : Bool
deriving Repr, DecidableEq

/-- The store-side state of one room `rooms/{CODE}`: whether the room
node exists, its membership object, and whether an onDisconnect write
is registered for the joining member's connection. -/
structure RoomStore where
  roomPresent : Bool
  members : Members
  disconnectArmed : Bool
deriving Repr, DecidableEq

/-- Environmental outcomes of one `joinRoom` call: which awaited store
operations reject, whether the store returns an inconsistent
post-commit snapshot, and whether a newer join attempt has advanced
`joinAttemptRef` by the time each `joinAttemptRef.current !== attemptId`
check runs (lines 227, 263 and 378). -/
structure JoinEnv where
  dbReady : Bool
  getThrows : Bool
  txnThrows : Bool
  snapshotDropsUser : Bool
  armThrows : Bool
  removeThrows : Bool
  supersededAfterGet : Bool
  supersededAfterTxn : Bool
  supersededAtCatch : Bool
deriving Repr, DecidableEq

/-- Store operations performed by a join call, in order. -/
inductive Ev
  | getRoom         -- `get(roomRef)` (line 225)
  | runTxn          -- `runTransaction(membersRef, ...)` (line 237)
  | txnCommit       -- the transaction committed
  | verifyOk        -- post-commit snapshot check passed (line 286)
  | removeUser      -- `remove(userRef)` cleanup (line 290)
  | armDisconnect   -- `onDisconnect(userRef).update(...)` settled (line 304)
  | attachMessages  -- messages `onValue` attached (line 311)
  | attachMembers   -- members `onValue` attached (line 336)
deriving Repr, DecidableEq

/-- Result of the `try` block body: returned a boolean, or threw. -/
inductive BodyRes
  | ret (b : Bool)
  | threw
deriving Repr, DecidableEq

/-- `cleanupListeners` (lines 108-126): detach both listeners, clear
the error and the current-room ref (it does not clear `currentUser`). -/
def cleanupListeners (st : LocalState) : LocalState :=
  { st with msgListener := false, memListener := false,
            error := none, currentRoomCode := none }

/-- The result of a `joinRoom` call: the resolved boolean, the final
local state, the final store state and the trace of store operations. -/
structure JoinOut where
  result : Bool
  state : LocalState
  store : RoomStore
  trace : List Ev
deriving Repr, DecidableEq

/-- The `try` block of `joinRoom` (lines 217-375), entered with
`loading = true` and `currentRoomCode = some code`.  `memberId` and
`userName` are `currentUser?.id || fresh` and `currentUser?.name ||
fresh` (lines 220-221), computed by the caller `joinRoom`. -/
def joinTry (env : JoinEnv) (st : LocalState) (store : RoomStore)
    (memberId userName : String) (now : Int) :
    BodyRes × LocalState × RoomStore × List Ev :=
  -- `await get(roomRef)` (line 225)
  if env.getThrows then (.threw, st, store, [.getRoom])
  else if store.roomPresent = false then
    -- room missing (lines 226-233)
    if env.supersededAfterGet then (.ret false, st, store, [.getRoom])
    else (.ret false,
      { st with error := some .roomNotFound, currentRoomCode := none, loading := false },
      store, [.getRoom])
  -- `await runTransaction(membersRef, ...)` (line 237)
  else if env.txnThrows then (.threw, st, store, [.getRoom, .runTxn])
  else
    match joinTxn memberId userName now store.members with
    | none =>
        -- transaction aborted: nothing written
        if env.supersededAfterTxn then (.ret false, st, store, [.getRoom, .runTxn])
        else (.ret false,
          { st with error := some .roomFullOrBusy, currentRoomCode := none, loading := false },
          store, [.getRoom, .runTxn])
    | some ms' =>
        let store1 : RoomStore := { store with members := ms' }
        if env.supersededAfterTxn then
          -- lines 262-273: committed but outdated — the code only logs a
          -- warning; no store write is performed, the entry stays
          (.ret false, st, store1, [.getRoom, .runTxn, .txnCommit])
        else if env.snapshotDropsUser then
          -- lines 286-294: committed entry missing from the snapshot
          let store2 : RoomStore :=
            if env.removeThrows then store1
            else { store1 with members := Members.removeEntry ms' memberId }
          (.ret false,
            { st with error := some .inconsistent, currentRoomCode := none, loading := false },
            store2, [.getRoom, .runTxn, .txnCommit, .removeUser])
        else
          -- lines 297-304: success path — set the user, then arm onDisconnect
          let st1 : LocalState := { st with currentUser := Members.lookupEntry ms' memberId }
          if env.armThrows then
            (.threw, st1, store1, [.getRoom, .runTxn, .txnCommit, .verifyOk])
          else
            let store3 : RoomStore := { store1 with disconnectArmed := true }
            -- lines 307-375: attach the two listeners, finish
            let st2 : LocalState :=
              { st1 with msgListener := true, memListener := true, loading := false }
            (.ret true, st2, store3,
              [.getRoom, .runTxn, .txnCommit, .verifyOk, .armDisconnect,
               .attachMessages, .attachMembers])

/-- The `catch` handler of `joinRoom` (lines 377-396): a superseded
attempt returns false without touching state; otherwise it sets the
error, runs `cleanupListeners` (which resets the error to null again),
clears the user and room refs and the loading flag. -/
def joinCatch (env : JoinEnv) (st : LocalState) : LocalState :=
  if env.supersededAtCatch then st
  else
    { cleanupListeners { st with error := some .generalJoinError } with
        currentUser := none, currentRoomCode := none, loading := false }

/-- `memberId = currentUser?.id || freshId` (line 220). -/
def joinMemberId (st : LocalState) (freshId : String) : String :=
  match st.currentUser with
  | some u => u.id
  | none => freshId

/-- `userName = currentUser?.name || freshName` (line 221). -/
def joinUserName (st : LocalState) (freshName : String) : String :=
  match st.currentUser with
  | some u => u.name
  | none => freshName

/-- Lines 203-214: set loading, clear the error, clean up listeners
when the target room differs from the current one, and record the
target room in the ref. -/
def joinStartState (st : LocalState) (code : String) : LocalState :=
  let st1 : LocalState := { st with loading := true, error := none }
  let st2 : LocalState :=
    if st1.currentRoomCode ≠ some code then cleanupListeners st1 else st1
  { st2 with currentRoomCode := some code }

/-- `joinRoom` (lines 181-397).  `freshId`/`freshName` stand for the
generated id `user_${Date.now()}_${random}` and random display name
used when there is no current user (lines 220-221). -/
def joinRoom (env : JoinEnv) (st : LocalState) (store : RoomStore)
    (freshId freshName : String) (now : Int) (roomCode : String) : JoinOut :=
  if env.dbReady = false then
    -- lines 182-185
    { result := false, state := { st with error := some .dbNotInitialized },
      store := store, trace := [] }
  else
    let code := jsToUpper roomCode
    if st.loading = true ∧ st.currentRoomCode = some code then
      -- lines 189-192: join already in progress for this room
      { result := false, state := st, store := store, trace := [] }
    else if st.currentUser.isSome = true ∧ st.currentRoomCode = some code then
      -- lines 195-199: already in the room — short-circuit to success
      { result := true, state := { st with loading := false }, store := store, trace := [] }
    else
      match joinTry env (joinStartState st code) store
          (joinMemberId st freshId) (joinUserName st freshName) now with
      | (.ret b, st', store', tr) => { result := b, state := st', store := store', trace := tr }
      | (.threw, st', store', tr) =>
          { result := false, state := joinCatch env st', store := store', trace := tr }

-- auxiliary lemmas about joinTry / joinRoom

/-- The join-attempt trace is either empty (a pre-try return) or the
trace of the `try` body. -/
lemma joinRoom_trace_cases (env : JoinEnv) (st : LocalState) (store : RoomStore)
    (freshId freshName : String) (now : Int) (roomCode : String) :
    (joinRoom env st store freshId freshName now roomCode).trace = [] ∨
    (joinRoom env st store freshId freshName now roomCode).trace =
      (joinTry env (joinStartState st (jsToUpper roomCode)) store
        (joinMemberId st freshId) (joinUserName st freshName) now).2.2.2 := by
  simp only [joinRoom]
  split_ifs
  · exact Or.inl rfl
  · exact Or.inl rfl
  · exact Or.inl rfl
  · rcases hbody : joinTry env (joinStartState st (jsToUpper roomCode)) store
        (joinMemberId st freshId) (joinUserName st freshName) now with ⟨br, st', store', tr⟩
    right
    cases br <;> rfl

/-- Any `joinTry` trace containing the arming of the disconnect hook is
the full success trace: read, transaction, commit, verification,
arming, then the two listener attachments. -/
lemma joinTry_arm_trace (env : JoinEnv) (st : LocalState) (store : RoomStore)
    (memberId userName : String) (now : Int)
    (h : Ev.armDisconnect ∈ (joinTry env st store memberId userName now).2.2.2) :
    (joinTry env st store memberId userName now).2.2.2 =
      [Ev.getRoom, Ev.runTxn, Ev.txnCommit, Ev.verifyOk, Ev.armDisconnect,
       Ev.attachMessages, Ev.attachMembers] := by
  unfold joinTry at h ⊢
  cases hj : joinTxn memberId userName now store.members <;>
    simp only [hj] at h ⊢ <;>
    split_ifs at h ⊢ <;>
    simp_all

/-- A `joinTry` run in which any of the awaited operations fails (or
the transaction aborts) never returns true. -/
lemma joinTry_fail (env : JoinEnv) (st : LocalState) (store : RoomStore)
    (memberId userName : String) (now : Int)
    (hfail : env.getThrows = true ∨ env.txnThrows = true ∨
      store.roomPresent = false ∨ env.snapshotDropsUser = true ∨ env.armThrows = true ∨
      joinTxn memberId userName now store.members = none) :
    (joinTry env st store memberId userName now).1 ≠ BodyRes.ret true := by
  unfold joinTry
  cases hj : joinTxn memberId userName now store.members <;>
    simp only [hj] at hfail ⊢ <;>
    split_ifs <;>
    simp_all

/-- C7: idempotent rejoin — if the client holds a Joined state for the
same (uppercased) room code (a current user, that room current, not
loading), a second `joinRoom` call returns true immediately, with no
store operation at all (no transaction, no second member entry), only
clearing the already-false loading flag. -/
theorem idempotent_rejoin (env : JoinEnv) (st : LocalState) (store : RoomStore)
    (freshId freshName : String) (now : Int) (roomCode : String) (u : Member)
    (hdb : env.dbReady = true)
    (huser : st.currentUser = some u)
    (hroom : st.currentRoomCode = some (jsToUpper roomCode))
    (hload : st.loading = false) :
    joinRoom env st store freshId freshName now roomCode =
      { result := true, state := { st with loading := false },
        store := store, trace := [] } := by
  simp only [joinRoom]
  rw [if_neg (by simp [hdb]), if_neg (by simp [hload]),
    if_pos ⟨by rw [huser]; rfl, hroom⟩]

/-- Witness for C7 at a concrete joined client. -/
theorem idempotent_rejoin_witness :
    joinRoom
      { dbReady := true, getThrows := false, txnThrows := false,
        snapshotDropsUser := false, armThrows := false, removeThrows := false,
        supersededAfterGet := false, supersededAfterTxn := false,
        supersededAtCatch := false }
      { currentUser := some { id := "m1", name := "Bob", online := true, lastSeen := 0 },
        currentRoomCode := some "ABC", loading := false, error := none,
        msgListener := true, memListener := true }
      { roomPresent := true,
        members := [("m1", { id := "m1", name := "Bob", online := true, lastSeen := 0 })],
        disconnectArmed := true }
      "f" "g" 7 "abc" =
      { result := true,
        state :=
          { currentUser := some { id := "m1", name := "Bob", online := true, lastSeen := 0 },
            currentRoomCode := some "ABC", loading := false, error := none,
            msgListener := true, memListener := true },
        store :=
          { roomPresent := true,
            members := [("m1", { id := "m1", name := "Bob", online := true, lastSeen := 0 })],
            disconnectArmed := true },
        trace := [] } :=
  idempotent_rejoin _ _ _ "f" "g" 7 "abc"
    { id := "m1", name := "Bob", online := true, lastSeen := 0 }
    (by decide) (by decide) (by decide) (by decide)

/-- C6: in every execution of `joinRoom`, the disconnect-triggered
write is registered only after the membership transaction has
committed and the committed entry has been verified in the post-commit
snapshot: any trace containing `armDisconnect` begins with the room
read, the transaction, its commit and the verification, in that order,
before the arming. -/
theorem disconnect_armed_only_after_commit (env : JoinEnv) (st : LocalState)
    (store : RoomStore) (freshId freshName : String) (now : Int) (roomCode : String)
    (h : Ev.armDisconnect ∈ (joinRoom env st store freshId freshName now roomCode).trace) :
    ∃ l, (joinRoom env st store freshId freshName now roomCode).trace =
      [Ev.getRoom, Ev.runTxn, Ev.txnCommit, Ev.verifyOk, Ev.armDisconnect] ++ l := by
  rcases joinRoom_trace_cases env st store freshId freshName now roomCode with htr | htr
  · rw [htr] at h
    exact absurd h (by simp)
  · rw [htr] at h ⊢
    rw [joinTry_arm_trace env _ store _ _ now h]
    exact ⟨[Ev.attachMessages, Ev.attachMembers], rfl⟩

/-- Witness for C6: a concrete successful join whose trace contains the
arming event. -/
theorem disconnect_armed_only_after_commit_witness :
    ∃ l, (joinRoom
      { dbReady := true, getThrows := false, txnThrows := false,
        snapshotDropsUser := false, armThrows := false, removeThrows := false,
        supersededAfterGet := false, supersededAfterTxn := false,
        supersededAtCatch := false }
      { currentUser := none, currentRoomCode := none, loading := false,
        error := none, msgListener := false, memListener := false }
      { roomPresent := true, members := [], disconnectArmed := false }
      "m1" "Bob" 5 "ABC").trace =
      [Ev.getRoom, Ev.runTxn, Ev.txnCommit, Ev.verifyOk, Ev.armDisconnect] ++ l :=
  disconnect_armed_only_after_commit _ _ _ "m1" "Bob" 5 "ABC" (by decide)

/-- Counterexample to C5 as stated: a client that already believes it
is Joined to the room short-circuits to success without reading the
store, so a `joinRoom` call against a room that does not exist in the
store returns true — not a room-not-found failure. -/
theorem room_missing_rejoin_cex :
    (joinRoom
      { dbReady := true, getThrows := false, txnThrows := false,
        snapshotDropsUser := false, armThrows := false, removeThrows := false,
        supersededAfterGet := false, supersededAfterTxn := false,
        supersededAtCatch := false }
      { currentUser := some { id := "m1", name := "Bob", online := true, lastSeen := 0 },
        currentRoomCode := some "ABC", loading := false, error := none,
        msgListener := true, memListener := true }
      { roomPresent := false, members := [], disconnectArmed := false }
      "f" "g" 7 "ABC").result = true := by
  decide

/-- C5 as amended: when the call does not hit the local short-circuits
(the client is not already joining or joined to that room) and the
attempt is not superseded, a `joinRoom` against a nonexistent room
returns false with the room-not-found error, performs only the room
read (no transaction) and leaves the store untouched. -/
theorem room_not_found_fails_fast (env : JoinEnv) (st : LocalState) (store : RoomStore)
    (freshId freshName : String) (now : Int) (roomCode : String)
    (hdb : env.dbReady = true)
    (hnotloading : ¬(st.loading = true ∧ st.currentRoomCode = some (jsToUpper roomCode)))
    (hnotjoined : ¬(st.currentUser.isSome = true ∧
      st.currentRoomCode = some (jsToUpper roomCode)))
    (hget : env.getThrows = false)
    (habsent : store.roomPresent = false)
    (hsup : env.supersededAfterGet = false) :
    (joinRoom env st store freshId freshName now roomCode).result = false ∧
      (joinRoom env st store freshId freshName now roomCode).store = store ∧
      (joinRoom env st store freshId freshName now roomCode).trace = [Ev.getRoom] ∧
      (joinRoom env st store freshId freshName now roomCode).state.error =
        some ErrTag.roomNotFound := by
  have hbody : joinTry env (joinStartState st (jsToUpper roomCode)) store
      (joinMemberId st freshId) (joinUserName st freshName) now =
      (.ret false,
        { joinStartState st (jsToUpper roomCode) with
            error := some .roomNotFound, currentRoomCode := none, loading := false },
        store, [.getRoom]) := by
    simp only [joinTry]
    rw [if_neg (by simp [hget]), if_pos habsent, if_neg (by simp [hsup])]
  simp only [joinRoom]
  rw [if_neg (by simp [hdb]), if_neg hnotloading, if_neg hnotjoined, hbody]
  exact ⟨rfl, rfl, rfl, rfl⟩

/-- Witness for the amended C5 at a concrete fresh client. -/
theorem room_not_found_fails_fast_witness :
    (joinRoom
      { dbReady := true, getThrows := false, txnThrows := false,
        snapshotDropsUser := false, armThrows := false, removeThrows := false,
        supersededAfterGet := false, supersededAfterTxn := false,
        supersededAtCatch := false }
      { currentUser := none, currentRoomCode := none, loading := false,
        error := none, msgListener := false, memListener := false }
      { roomPresent := false, members := [], disconnectArmed := false }
      "m1" "Bob" 7 "abc").result = false ∧
    (joinRoom
      { dbReady := true, getThrows := false, txnThrows := false,
        snapshotDropsUser := false, armThrows := false, removeThrows := false,
        supersededAfterGet := false, supersededAfterTxn := false,
        supersededAtCatch := false }
      { currentUser := none, currentRoomCode := none, loading := false,
        error := none, msgListener := false, memListener := false }
      { roomPresent := false, members := [], disconnectArmed := false }
      "m1" "Bob" 7 "abc").store =
      { roomPresent := false, members := [], disconnectArmed := false } ∧
    (joinRoom
      { dbReady := true, getThrows := false, txnThrows := false,
        snapshotDropsUser := false, armThrows := false, removeThrows := false,
        supersededAfterGet := false, supersededAfterTxn := false,
        supersededAtCatch := false }
      { currentUser := none, currentRoomCode := none, loading := false,
        error := none, msgListener := false, memListener := false }
      { roomPresent := false, members := [], disconnectArmed := false }
      "m1" "Bob" 7 "abc").trace = [Ev.getRoom] ∧
    (joinRoom
      { dbReady := true, getThrows := false, txnThrows := false,
        snapshotDropsUser := false, armThrows := false, removeThrows := false,
        supersededAfterGet := false, supersededAfterTxn := false,
        supersededAtCatch := false }
      { currentUser := none, currentRoomCode := none, loading := false,
        error := none, msgListener := false, memListener := false }
      { roomPresent := false, members := [], disconnectArmed := false }
      "m1" "Bob" 7 "abc").state.error = some ErrTag.roomNotFound :=
  room_not_found_fails_fast _ _ _ "m1" "Bob" 7 "abc"
    (by decide) (by decide) (by decide) (by decide) (by decide) (by decide)

/-- C2 evaluated at its failing input: a join whose transaction commits
after the attempt counter has advanced (`supersededAfterTxn`) returns
false but performs no cleanup write — the orphaned member entry is
still in the store afterwards, contradicting the claimed removal
(chat-context.tsx lines 262-273 only log a warning there; the variant
in `src/unnamed/part_000` lines 309-316 performs the `remove`). -/
theorem superseded_commit_leaves_ghost :
    (joinRoom
      { dbReady := true, getThrows := false, txnThrows := false,
        snapshotDropsUser := false, armThrows := false, removeThrows := false,
        supersededAfterGet := false, supersededAfterTxn := true,
        supersededAtCatch := false }
      { currentUser := none, currentRoomCode := none, loading := false,
        error := none, msgListener := false, memListener := false }
      { roomPresent := true, members := [], disconnectArmed := false }
      "m1" "Bob" 5 "ABC").result = false ∧
    Members.lookupEntry
      (joinRoom
        { dbReady := true, getThrows := false, txnThrows := false,
          snapshotDropsUser := false, armThrows := false, removeThrows := false,
          supersededAfterGet := false, supersededAfterTxn := true,
          supersededAtCatch := false }
        { currentUser := none, currentRoomCode := none, loading := false,
          error := none, msgListener := false, memListener := false }
        { roomPresent := true, members := [], disconnectArmed := false }
        "m1" "Bob" 5 "ABC").store.members "m1" =
      some { id := "m1", name := "Bob", online := true, lastSeen := 5 } ∧
    (joinRoom
      { dbReady := true, getThrows := false, txnThrows := false,
        snapshotDropsUser := false, armThrows := false, removeThrows := false,
        supersededAfterGet := false, supersededAfterTxn := true,
        supersededAtCatch := false }
      { currentUser := none, currentRoomCode := none, loading := false,
        error := none, msgListener := false, memListener := false }
      { roomPresent := true, members := [], disconnectArmed := false }
      "m1" "Bob" 5 "ABC").trace = [Ev.getRoom, Ev.runTxn, Ev.txnCommit] := by
  decide

/-- Counterexample to C10 as stated: on the catch-all path (here a
rejected room read) the code first sets the error and then calls
`cleanupListeners`, whose `setError(null)` clears it again — the call
resolves false, but the failure is not left surfaced in the error
state. -/
theorem thrown_error_not_surfaced_cex :
    (joinRoom
      { dbReady := true, getThrows := true, txnThrows := false,
        snapshotDropsUser := false, armThrows := false, removeThrows := false,
        supersededAfterGet := false, supersededAfterTxn := false,
        supersededAtCatch := false }
      { currentUser := none, currentRoomCode := none, loading := false,
        error := none, msgListener := false, memListener := false }
      { roomPresent := true, members := [], disconnectArmed := false }
      "m1" "Bob" 5 "ABC").result = false ∧
    (joinRoom
      { dbReady := true, getThrows := true, txnThrows := false,
        snapshotDropsUser := false, armThrows := false, removeThrows := false,
        supersededAfterGet := false, supersededAfterTxn := false,
        supersededAtCatch := false }
      { currentUser := none, currentRoomCode := none, loading := false,
        error := none, msgListener := false, memListener := false }
      { roomPresent := true, members := [], disconnectArmed := false }
      "m1" "Bob" 5 "ABC").state.error = none := by
  decide

/-- C10 as amended: `joinRoom` always resolves to a boolean and never
rejects (the embedding is a total function into a boolean result; every
`BodyRes.threw` raised in the body is absorbed by `joinCatch`), and
every internal failure — missing database, rejected room read,
nonexistent room, rejected or aborted transaction, post-commit
inconsistency, rejected onDisconnect registration — resolves to false
provided the already-joined short-circuit does not apply; the
catch-all path, however, leaves the error state cleared again rather
than surfaced. -/
theorem join_failures_resolve_false (env : JoinEnv) (st : LocalState)
    (store : RoomStore) (freshId freshName : String) (now : Int) (roomCode : String)
    (hnotjoined : ¬(st.currentUser.isSome = true ∧
      st.currentRoomCode = some (jsToUpper roomCode)))
    (hfail : env.dbReady = false ∨ env.getThrows = true ∨ env.txnThrows = true ∨
      store.roomPresent = false ∨ env.snapshotDropsUser = true ∨ env.armThrows = true ∨
      joinTxn (joinMemberId st freshId) (joinUserName st freshName) now store.members
        = none) :
    (joinRoom env st store freshId freshName now roomCode).result = false := by
  by_cases hdb : env.dbReady = false
  · simp only [joinRoom]
    rw [if_pos hdb]
  · simp only [joinRoom]
    rw [if_neg hdb]
    by_cases hload : st.loading = true ∧ st.currentRoomCode = some (jsToUpper roomCode)
    · rw [if_pos hload]
    · rw [if_neg hload, if_neg hnotjoined]
      have hfail' : env.getThrows = true ∨ env.txnThrows = true ∨
          store.roomPresent = false ∨ env.snapshotDropsUser = true ∨
          env.armThrows = true ∨
          joinTxn (joinMemberId st freshId) (joinUserName st freshName) now
            store.members = none := by
        rcases hfail with h | h
        · exact absurd h hdb
        · exact h
      have hne := joinTry_fail env (joinStartState st (jsToUpper roomCode)) store
        (joinMemberId st freshId) (joinUserName st freshName) now hfail'
      rcases hbody : joinTry env (joinStartState st (jsToUpper roomCode)) store
          (joinMemberId st freshId) (joinUserName st freshName) now with ⟨br, st', store', tr⟩
      rw [hbody] at hne
      cases br with
      | ret b =>
          cases b
          · rfl
          · exact absurd rfl hne
      | threw => rfl

/-- Witness for the amended C10: a concrete call against a nonexistent
room resolves false. -/
theorem join_failures_resolve_false_witness :
    (joinRoom
      { dbReady := true, getThrows := false, txnThrows := false,
        snapshotDropsUser := false, armThrows := false, removeThrows := false,
        supersededAfterGet := false, supersededAfterTxn := false,
        supersededAtCatch := false }
      { currentUser := none, currentRoomCode := none, loading := false,
        error := none, msgListener := false, memListener := false }
      { roomPresent := false, members := [], disconnectArmed := false }
      "m1" "Bob" 5 "ABC").result = false :=
  join_failures_resolve_false _ _ _ "m1" "Bob" 5 "ABC" (by decide)
    (by right; right; right; left; rfl)

/-! ## leaveRoom -/

/-- `update(userRef, { online: false, lastSeen: serverTimestamp() })`
(line 438), marking the member offline.  (A Firebase `update` against
a missing key would create a partial node; membership of the claims
below does not depend on that corner and an absent key is left
absent.) -/
def Members.markOffline (ms : Members) (k : String) (now : Int) : Members :=
  ms.map fun p =>
    if p.1 = k then (p.1, { p.2 with online := false, lastSeen := now }) else p

/-- Environmental outcomes of one `leaveRoom` call: which of the three
awaited store operations reject. -/
structure LeaveEnv where
  dbReady : Bool
  cancelThrows : Bool   -- onDisconnect(userRef).cancel() rejects (line 430)
  offlineThrows : Bool  -- update(userRef, ...) rejects (line 438)
  readThrows : Bool     -- get(membersRef) rejects (line 447)
deriving Repr, DecidableEq

/-- `leaveRoom` (chat-context.tsx lines 400-477).  Each store
operation sits in its own try/catch that logs and continues, and the
`finally` block always runs `cleanupListeners` and clears the local
user, room ref and loading flag — so the function is total (the
promise always resolves) for every environment. -/
def leaveRoom (env : LeaveEnv) (st : LocalState) (store : RoomStore)
    (now : Int) (roomCode : String) : LocalState × RoomStore :=
  let code := jsToUpper roomCode
  if env.dbReady = false ∨ st.currentUser = none ∨ st.currentRoomCode ≠ some code then
    -- lines 405-417: no matching Joined context; clean up locally anyway
    let st1 :=
      if st.currentRoomCode ≠ none ∨ st.msgListener = true ∨ st.memListener = true then
        cleanupListeners st
      else st
    ({ st1 with currentUser := none, currentRoomCode := none,
                error := none, loading := false }, store)
  else
    match st.currentUser with
    | none =>
        -- unreachable: the guard above ensures a current user
        ({ cleanupListeners st with currentUser := none, currentRoomCode := none,
                                    loading := false }, store)
    | some u =>
        -- line 430: cancel the disconnect hook (best effort)
        let store1 : RoomStore :=
          if env.cancelThrows then store else { store with disconnectArmed := false }
        -- line 438: mark the member offline (best effort)
        let store2 : RoomStore :=
          if env.offlineThrows then store1
          else { store1 with members := Members.markOffline store1.members u.id now }
        -- lines 446-462: read-only check of the remaining members (logs only)
        -- lines 468-476 (finally): local cleanup always happens
        ({ cleanupListeners st with currentUser := none, currentRoomCode := none,
                                    loading := false }, store2)

/-- C8: `leaveRoom` never rejects (the embedding is total for every
environment, matching the per-step try/catch plus `finally` structure)
and always performs local cleanup — whatever the environment, the
local state after the call has both subscriptions detached and the
identity, current-room ref and loading flag cleared. -/
theorem leave_always_cleans_up (env : LeaveEnv) (st : LocalState) (store : RoomStore)
    (now : Int) (roomCode : String) :
    (leaveRoom env st store now roomCode).1.msgListener = false ∧
      (leaveRoom env st store now roomCode).1.memListener = false ∧
      (leaveRoom env st store now roomCode).1.currentUser = none ∧
      (leaveRoom env st store now roomCode).1.currentRoomCode = none ∧
      (leaveRoom env st store now roomCode).1.loading = false := by
  unfold leaveRoom
  by_cases h1 : env.dbReady = false ∨ st.currentUser = none ∨
      st.currentRoomCode ≠ some (jsToUpper roomCode)
  · rw [if_pos h1]
    by_cases h2 : st.currentRoomCode ≠ none ∨ st.msgListener = true ∨
        st.memListener = true
    · rw [if_pos h2]
      exact ⟨rfl, rfl, rfl, rfl, rfl⟩
    · rw [if_neg h2]
      push_neg at h2
      obtain ⟨hcr, hmsg, hmem⟩ := h2
      exact ⟨by simpa using hmsg, by simpa using hmem, rfl, rfl, rfl⟩
  · rw [if_neg h1]
    cases hcu : st.currentUser <;> exact ⟨rfl, rfl, rfl, rfl, rfl⟩

/-! ## The Liveness Sweeper -/

/-- The delay the inactivity-check effect passes to `setInterval`
(line 638): the code passes `MEMBER_INACTIVITY_TIMEOUT` itself — even
though the trailing comment reads "Check more frequently, e.g., every
minute", and the sibling variant `src/unnamed/part_001` line 619
passes `MEMBER_INACTIVITY_TIMEOUT / 2` ("every 2.5 minutes"). -/
def sweepIntervalMs : Int := MEMBER_INACTIVITY_TIMEOUT

/-- C3 evaluated: the sweeper's tick interval is the full 5-minute
timeout (300000 ms), not the claimed half (150000 ms = 2.5 minutes). -/
theorem sweep_interval_is_full_timeout :
    sweepIntervalMs = 300000 ∧ MEMBER_INACTIVITY_TIMEOUT / 2 = 150000 ∧
      sweepIntervalMs ≠ MEMBER_INACTIVITY_TIMEOUT / 2 := by
  decide

/-- The stuck-online multiplier: line 597 compares against
`MEMBER_INACTIVITY_TIMEOUT * 3`. -/
def STUCK_MULTIPLIER : Int := 3

/-- Classification of one member during a sweep tick (lines 594-603):
`timeSinceSeen = now - member.lastSeen`; stale-offline when not online
and past the timeout, stuck-online when online and past three times
the timeout. -/
def isEligible (now : Int) (m : Member) : Bool :=
  let timeSinceSeen := now - m.lastSeen
  (!m.online && decide (timeSinceSeen > MEMBER_INACTIVITY_TIMEOUT)) ||
    (m.online && decide (timeSinceSeen > MEMBER_INACTIVITY_TIMEOUT * STUCK_MULTIPLIER))

/-- `membersToRemove` (lines 590-607): the ids of the eligible
members, in object-key order. -/
def membersToRemove (now : Int) (ms : Members) : List String :=
  (ms.filter fun p => isEligible now p.2).map Prod.fst

/-- The single batched `update(membersRef, { id: null, ... })`
(lines 610-613): every listed key is removed in one write. -/
def batchRemove (ms : Members) (ids : List String) : Members :=
  ms.filter fun p => decide (p.1 ∉ ids)

/-- One sweep tick over a membership map (lines 588-614): classify
every member, then batch-remove the eligible ids in a single write
(no write at all when none are eligible). -/
def sweepTick (now : Int) (ms : Members) : Members :=
  let toRemove := membersToRemove now ms
  if toRemove.isEmpty then ms else batchRemove ms toRemove

/-- C4: on each sweep tick the removed ids are exactly the eligible
ones — the surviving map is the filter of the ineligible members — and
they are removed together in the one batched write `batchRemove`. -/
theorem sweep_removes_exactly_eligible (now : Int) (ms : Members)
    (hnodup : (ms.map Prod.fst).Nodup) :
    sweepTick now ms = ms.filter fun p => !(isEligible now p.2) := by
  unfold sweepTick
  by_cases hemp : (membersToRemove now ms).isEmpty
  · rw [if_pos hemp]
    have hnil : ms.filter (fun p => isEligible now p.2) = [] := by
      have := List.isEmpty_iff.mp hemp
      unfold membersToRemove at this
      exact List.map_eq_nil_iff.mp this
    have hall : ∀ p ∈ ms, ¬(isEligible now p.2 = true) := by
      intro p hp
      exact (List.filter_eq_nil_iff.mp hnil) p hp
    symm
    rw [List.filter_eq_self]
    intro p hp
    simpa using hall p hp
  · rw [if_neg hemp]
    unfold batchRemove
    apply List.filter_congr
    intro p hp
    by_cases helig : isEligible now p.2 = true
    · have hmem : p.1 ∈ membersToRemove now ms := by
        unfold membersToRemove
        exact List.mem_map_of_mem Prod.fst (List.mem_filter.mpr ⟨hp, helig⟩)
      simp [hmem, helig]
    · have hnmem : p.1 ∉ membersToRemove now ms := by
        intro hmem
        unfold membersToRemove at hmem
        rcases List.mem_map.mp hmem with ⟨q, hq, hq1⟩
        have hqms : q ∈ ms := List.mem_of_mem_filter hq
        have hqelig : isEligible now q.2 = true := (List.mem_filter.mp hq).2
        have : q = p := List.inj_on_of_nodup_map hnodup hqms hp hq1
        rw [this] at hqelig
        exact helig hqelig
      simp [hnmem, helig]

/-- Witness for C4 at a concrete map: one stale-offline member, one
stuck-online member and one fresh member (timeout 300000 ms, probe at
now = 1000000 ms). -/
theorem sweep_removes_exactly_eligible_witness :
    (([("a", { id := "a", name := "A", online := false, lastSeen := 0 }),
       ("b", { id := "b", name := "B", online := true, lastSeen := 0 }),
       ("c", { id := "c", name := "C", online := true, lastSeen := 999999 })] :
        Members).map Prod.fst).Nodup ∧
    sweepTick 1000000
      [("a", { id := "a", name := "A", online := false, lastSeen := 0 }),
       ("b", { id := "b", name := "B", online := true, lastSeen := 0 }),
       ("c", { id := "c", name := "C", online := true, lastSeen := 999999 })] =
      List.filter (fun p => !(isEligible 1000000 p.2))
        [("a", { id := "a", name := "A", online := false, lastSeen := 0 }),
         ("b", { id := "b", name := "B", online := true, lastSeen := 0 }),
         ("c", { id := "c", name := "C", online := true, lastSeen := 999999 })] :=
  ⟨by decide, sweep_removes_exactly_eligible 1000000 _ (by decide)⟩

/-! ## The message log -/

/-- The `Message` interface (lines 27-32) with a resolved numeric
timestamp. -/
structure Message where
  id : String
  senderId : String
  text : String
  timestamp : Int
deriving Repr, DecidableEq

/-- The body of the messages `onValue` handler (lines 314-319): the
full log is flattened and, when non-empty, sorted ascending by
timestamp (`Array.prototype.sort` with the comparator
`(a, b) => a.timestamp - b.timestamp`, a stable comparison sort —
embedded as a stable merge sort on the ≤ relation). -/
def processMessages (msgs : List Message) : List Message :=
  if msgs.length > 0 then
    msgs.mergeSort fun a b => decide (a.timestamp ≤ b.timestamp)
  else msgs

/-- C9: whatever order the message writes arrived in, the exposed list
on every delivery is a permutation of the delivered log sorted
ascending by timestamp — so messages sent with increasing timestamps
are observed in timestamp order. -/
theorem messages_resorted_by_timestamp (msgs : List Message) :
    List.Pairwise (fun a b => a.timestamp ≤ b.timestamp) (processMessages msgs) ∧
      (processMessages msgs).Perm msgs := by
  unfold processMessages
  by_cases h : msgs.length > 0
  · rw [if_pos h]
    constructor
    · refine List.Pairwise.imp ?_ (List.sorted_mergeSort ?_ ?_ msgs)
      · intro a b hab
        exact of_decide_eq_true hab
      · intro a b c hab hbc
        exact decide_eq_true (le_trans (of_decide_eq_true hab) (of_decide_eq_true hbc))
      · intro a b
        rcases le_total a.timestamp b.timestamp with hle | hle
        · simp [hle]
        · simp [hle]
    · exact List.mergeSort_perm msgs _
  · rw [if_neg h]
    have : msgs = [] := List.length_eq_zero.mp (by omega)
    subst this
    exact ⟨List.Pairwise.nil, List.Perm.refl _⟩

end NOTRACE
